import Mathlib

/-!
Shallow embedding of `reserve.py`, a cooperative lock-based GPU scheduler.
External collaborators (nvidia-smi, ps, lsof, flock, kill) are modelled as
explicit parameters: the lock table is a map from lock-file name to the pid
holding it, process facts are functions on pid strings, and liveness during
the termination wait is a function of (elapsed seconds, pid).
-/

namespace Reserve

/-- Module-level constant `lock_base_directory` (reserve.py line 13). -/
def lock_base_directory : String := "/shared/group/gpu_scheduler/locks"

/-- `MINIMUM_PRIVELIGED_JOBS` (reserve.py line 15, spelling as in the source). -/
def MINIMUM_PRIVELIGED_JOBS : Nat := 1

/-- `MINIMUM_NON_PRIVELIGED_JOBS` (reserve.py line 16). -/
def MINIMUM_NON_PRIVELIGED_JOBS : Nat := 0

/-- `GPUInfo` namedtuple (line 26): nvidia-smi index and device name, both strings. -/
structure GPUInfo where
  index : String
  name : String
deriving DecidableEq, Repr

/-- `ProcInfo` namedtuple (line 27): one reserved-device occupant. -/
structure ProcInfo where
  pid : String
  user : String
  gpu_index : String
  start_time : Int
  preemption_candidate : Bool
deriving DecidableEq, Repr

/-- A Python value that can be used as a dict key in `try_launch`:
either a `str` (the lock-file names used as keys of `available_gpu_locks`)
or a file object (what `lock_and_run` returns as the blocking file).
File objects are identified here by the path they were opened from; the code
never compares two file objects with each other, only (implicitly, inside
`del`) a file object against `str` keys, and that comparison is `False` in
Python for every string. -/
inductive PyVal where
  | str (s : String)
  | fileObj (path : String)
deriving DecidableEq, Repr

/-- Python `==` between dict keys of the two shapes that occur in `try_launch`:
a file object is never equal to a `str`. -/
def pyEq : PyVal → PyVal → Bool
  | .str a, .str b => a == b
  | .fileObj a, .fileObj b => a == b
  | _, _ => false

/-- The filename a `PyVal` refers to (`open(filename, 'wb')` is only ever
called on the `str` keys; the `fileObj` branch records the path it wraps). -/
def pyFileName : PyVal → String
  | .str s => s
  | .fileObj p => p

/-- Python `del d[k]`: removes the entry whose key equals `k`, raising
`KeyError` (modelled as `Except.error`) when no key equals `k`. -/
def pyDictDel (d : List (PyVal × String)) (k : PyVal) : Except Unit (List (PyVal × String)) :=
  if d.any (fun e => pyEq e.1 k) then Except.ok (d.eraseP (fun e => pyEq e.1 k))
  else Except.error ()

/-- The advisory lock table: lock-file name to the pid of the process whose
open handle holds the `flock`, or `none` when the file is unlocked.
`get_locking_pid` (lines 114-123) is the read side of this map. -/
def LockState : Type := String → Option String

/-- State after this process (`me`) successfully `flock`s file `fn`. -/
def flockUpd (st : LockState) (fn me : String) : LockState :=
  fun g => if g = fn then some me else st g

/-- Closing the files entered into the `ExitStack` releases every lock the
call acquired (line 131: the lock is released when the file is closed). -/
def releaseAll (st : LockState) (acq : List String) : LockState :=
  fun g => if acq.contains g then none else st g

/-- The locking phase of `lock_and_run` (lines 126-133): walk the filenames in
order, `flock(LOCK_EX|LOCK_NB)` each; a file already locked (by anyone) makes
the non-blocking flock fail, upon which the `return False, f` leaves the
`with ExitStack()` block, closing and thereby unlocking every file opened so
far.  Returns (lock table afterwards, files acquired, blocking file if any). -/
def acquireGo (me : String) : LockState → List String → List String →
    LockState × List String × Option String
  | st, acq, [] => (st, acq, none)
  | st, acq, fn :: rest =>
    match st fn with
    | none => acquireGo me (flockUpd st fn me) (fn :: acq) rest
    | some _ => (releaseAll st acq, acq, some fn)

/-- Entry point of the locking phase: no file acquired yet. -/
def acquire_all (me : String) (st : LockState) (fns : List String) :
    LockState × List String × Option String :=
  acquireGo me st [] fns

/-- A process environment: os.environ or the dict passed to `Popen`. -/
def Env : Type := String → Option String

/-- `env[k] = v`. -/
def setEnv (e : Env) (k v : String) : Env :=
  fun q => if q = k then some v else e q

/-- `lock_and_run` (lines 125-156): lock every file in `files`; on the first
flock failure return the blocking file object (`.error`, carrying the
rolled-back lock table).  On success spawn the command with environment `env`,
wait for it, ignore its exit status (`returned` is never inspected after the
loop) and `return True, None`; leaving the `with` block then closes the lock
files, releasing the locks (`.ok` carries the post-release table and the
environment the workload was spawned with). -/
def lock_and_run (me : String) (st : LockState) (files : List PyVal)
    (_cmdStatus : Int) (env : Env) : Except (LockState × PyVal) (LockState × Env) :=
  match acquire_all me st (files.map pyFileName) with
  | (st1, _, some blocked) => Except.error (st1, PyVal.fileObj blocked)
  | (st1, acq, none) =>
    -- subprocess.Popen(command, env=env); process.wait() yields cmdStatus,
    -- which the code discards before `return True, None`.
    Except.ok (releaseAll st1 acq, env)

/-- Parsed command-line arguments (lines 166-173). -/
structure Args where
  large_mem : Bool
  num_gpus : Nat
  no_inherit_environment : Bool
  preempt_wait_time : Nat
deriving DecidableEq, Repr

/-- `'8000' in gpu_info.name` (line 188). -/
def contains8000 (name : String) : Bool :=
  decide ("8000".toList <:+: name.toList)

/-- `can_run` (lines 188-189): the requested class matches this device. -/
def can_run (large_mem : Bool) (name : String) : Bool :=
  (large_mem && contains8000 name) || (!large_mem && !contains8000 name)

/-- `os.path.join(lock_directory, 'gpu{}'.format(index))` (line 190). -/
def lockFile (dir : String) (index : String) : String :=
  dir ++ "/gpu" ++ index

/-- Effective occupant of a device (lines 191-196): the pid holding the lock
file, or, when nobody holds it but device-level processes exist, the first
such process ("process is using without a reservation"). -/
def used_by (gpu_processes : String → List String) (lockPid : String → Option String)
    (dir : String) (uuid : String) (info : GPUInfo) : Option String :=
  match lockPid (lockFile dir info.index) with
  | some p => some p
  | none =>
    match gpu_processes uuid with
    | [] => none
    | p :: _ => some p

/-- The `ProcInfo` appended to `reserved_processes_by_user` (lines 202-208). -/
def mkProcInfo (process_users : String → String) (all_start_times : String → Int)
    (large_mem : Bool) (p : String) (info : GPUInfo) : ProcInfo :=
  ⟨p, process_users p, info.index, all_start_times p, can_run large_mem info.name⟩

/-- The classification loop of `try_launch` (lines 187-208): for each device,
either record it in `available_gpu_locks` (lock file ↦ index, only when it is
unoccupied and of the requested class) or append its occupant to the reserved
bookkeeping.  Devices are processed in inventory order, so both outputs keep
that order, exactly as the Python dict/defaultdict insertion order does. -/
def classify (large_mem : Bool) (dir : String) (gpu_processes : String → List String)
    (process_users : String → String) (all_start_times : String → Int)
    (lockPid : String → Option String) :
    List (String × GPUInfo) → List (PyVal × String) × List ProcInfo
  | [] => ([], [])
  | (uuid, info) :: rest =>
    let r := classify large_mem dir gpu_processes process_users all_start_times lockPid rest
    match used_by gpu_processes lockPid dir uuid info with
    | none =>
      if can_run large_mem info.name then
        ((PyVal.str (lockFile dir info.index), info.index) :: r.1, r.2)
      else r
    | some p => (r.1, mkProcInfo process_users all_start_times large_mem p info :: r.2)

/-- `','.join` (line 217). -/
def commaJoin : List String → String
  | [] => ""
  | [x] => x
  | x :: xs => x ++ "," ++ commaJoin xs

/-- How one run of the `while` loop of `try_launch` (lines 210-228) ends.
Every constructor carries the final `os.environ` and lock table. -/
inductive LaunchOutcome where
  | exited (code : Nat) (environ : Env) (locks : LockState) (spawned : Env)
  | keyError (environ : Env) (locks : LockState)
  | exhausted (environ : Env) (locks : LockState) (reserved : List ProcInfo)
  | fuelOut (environ : Env) (locks : LockState)

/-- The final `os.environ` of an outcome. -/
def LaunchOutcome.environ : LaunchOutcome → Env
  | .exited _ e _ _ => e
  | .keyError e _ => e
  | .exhausted e _ _ => e
  | .fuelOut e _ => e

/-- The `sys.exit` code, when the outcome is a normal exit (line 222). -/
def LaunchOutcome.exitCode? : LaunchOutcome → Option Nat
  | .exited c _ _ _ => some c
  | _ => none

/-- Whether the outcome is the uncaught `KeyError` from
`del available_gpu_locks[blocking_file]` (line 225). -/
def LaunchOutcome.isKeyError : LaunchOutcome → Bool
  | .keyError _ _ => true
  | _ => false

/-- The acquisition/run loop of `try_launch` (lines 210-228), fuelled to make
the recursion structural.  One iteration: when enough candidates remain, take
the first `num_gpus` keys of `available_gpu_locks`, write the comma-joined
indices into `CUDA_VISIBLE_DEVICES` of either `os.environ` itself (inherit
mode, line 214: `env = os.environ`, no copy) or a fresh empty dict
(`--no-inherit-environment`), and call `lock_and_run`.  On success,
`sys.exit(0)`.  On failure, `del available_gpu_locks[blocking_file]` with the
returned file object as key; when that raises the loop dies with the
exception, otherwise it retries with the shrunken dict. -/
def tryLaunchGo (me : String) (args : Args) (cmdStatus : Int) (reserved : List ProcInfo) :
    Nat → LockState → Env → List (PyVal × String) → LaunchOutcome
  | 0, st, environ, _ => .fuelOut environ st
  | fuel + 1, st, environ, avail =>
    if args.num_gpus ≤ avail.length then
      let chosen := avail.take args.num_gpus
      let cvd := commaJoin (chosen.map (fun e => e.2))
      let env1 := setEnv (if args.no_inherit_environment then (fun _ => none) else environ)
        "CUDA_VISIBLE_DEVICES" cvd
      let environ1 := if args.no_inherit_environment then environ else env1
      match lock_and_run me st (chosen.map (fun e => e.1)) cmdStatus env1 with
      | .ok (st1, sp) => .exited 0 environ1 st1 sp
      | .error (st1, blocked) =>
        match pyDictDel avail blocked with
        | .error _ => .keyError environ1 st1
        | .ok avail1 => tryLaunchGo me args cmdStatus reserved fuel st1 environ1 avail1
    else
      .exhausted environ st reserved

/-- The `try_launch` loop with enough fuel for every reachable iteration
(each successful `del` shrinks the dict by one entry). -/
def try_launch_loop (me : String) (args : Args) (cmdStatus : Int) (reserved : List ProcInfo)
    (st : LockState) (environ : Env) (avail : List (PyVal × String)) : LaunchOutcome :=
  tryLaunchGo me args cmdStatus reserved (avail.length + 1) st environ avail

/-- The polling loop of `kill_process` (lines 107-111).  `alive t p` models
`process_is_running(p)` as observed `t` seconds after the signal was sent;
`toCheck` is the descendant list fixed before signalling.  The probe at time
`t` is taken; when it is non-empty and budget remains, sleep one second and
probe again. -/
def killPollGo (alive : Nat → String → Bool) (toCheck : List String) :
    Nat → Nat → List String
  | t, 0 => toCheck.filter (alive t)
  | t, remaining + 1 =>
    let still := toCheck.filter (alive t)
    if still = [] then still else killPollGo alive toCheck (t + 1) remaining

/-- `kill_process` (lines 96-112): in recursive mode, the signal target is the
process group `-pid` and the liveness set is the descendant list enumerated
before signalling; otherwise both are the single pid.  Exactly one
`sudo kill -signal target` is issued (the returned signal log), then liveness
is polled once per second for up to `max_wait_time` seconds, and whatever is
still alive at the end is returned verbatim. -/
def kill_process (descendants : String → List String) (alive : Nat → String → Bool)
    (pid : String) (max_wait_time : Nat) (recursive : Bool) (signal : Nat) :
    List (Nat × String) × List String :=
  let toKill := if recursive then "-" ++ pid else pid
  let toCheck := if recursive then descendants pid else [pid]
  ([(signal, toKill)], killPollGo alive toCheck 0 max_wait_time)

/-- The keys of `user_reservation_counts_usable` (lines 244-247): one entry
per user of `reserved_processes_by_user`, valued by how many of that user's
occupants sit on preemption-candidate devices. -/
def user_reservation_counts_usable (reserved : List ProcInfo) : List (String × Nat) :=
  (reserved.map (fun p => p.user)).dedup.map
    (fun u => (u, (reserved.filter (fun p => p.user == u)).countP
      (fun p => p.preemption_candidate)))

/-- The guard of the preemption block (line 256):
`user in privileged_users and user not in user_reservation_counts_usable and args.num_gpus == 1`. -/
def preemptionAttempted (user : String) (privileged : List String) (num_gpus : Nat)
    (reserved : List ProcInfo) : Bool :=
  privileged.contains user
    && !((user_reservation_counts_usable reserved).map (fun e => e.1)).contains user
    && (num_gpus == 1)

/-- Size of an owner group in `reserved_processes_by_user.items()`. -/
def groupSize (g : String × List ProcInfo) : Nat := g.2.length

/-- Insert into a list sorted by group size descending, after every
strictly-larger group and before every group of equal or smaller size:
the insertion-sort kernel of a stable descending sort, the behaviour of
Python `sorted(reserved, key=lambda tpl: len(tpl[1]), reverse=True)`
(line 260). -/
def insertBySizeDesc (x : String × List ProcInfo) :
    List (String × List ProcInfo) → List (String × List ProcInfo)
  | [] => [x]
  | y :: ys => if groupSize x < groupSize y then y :: insertBySizeDesc x ys else x :: y :: ys

/-- Stable sort by group size descending (line 260).  The input is the
already-shuffled group list (`random.shuffle(reserved)` at line 259 is
modelled by quantifying over an arbitrary permutation of the groups). -/
def sortBySizeDesc : List (String × List ProcInfo) → List (String × List ProcInfo)
  | [] => []
  | x :: xs => insertBySizeDesc x (sortBySizeDesc xs)

/-- `over_minimum` (lines 262-263). -/
def over_minimum (privileged : List String) (user_to_boot : String)
    (users_processes : List ProcInfo) : Bool :=
  (privileged.contains user_to_boot && decide (MINIMUM_PRIVELIGED_JOBS < users_processes.length))
    || (!privileged.contains user_to_boot
        && decide (MINIMUM_NON_PRIVELIGED_JOBS < users_processes.length))

/-- The quota a group must strictly exceed before it can be preempted. -/
def quota (privileged : List String) (u : String) : Nat :=
  if privileged.contains u then MINIMUM_PRIVELIGED_JOBS else MINIMUM_NON_PRIVELIGED_JOBS

/-- Python `max(candidates, key=lambda pinfo: pinfo.start_time)` (line 266):
keep the current best, replacing it only when a later element is strictly
newer. -/
def pyMaxStart (x : ProcInfo) : List ProcInfo → ProcInfo
  | [] => x
  | y :: ys => pyMaxStart (if x.start_time < y.start_time then y else x) ys

/-- The victim-selection walk (lines 260-281): visit the sorted groups in
order; a group with no preemption candidate or not over its minimum is
skipped; the first qualifying group yields the newest preemption-candidate
occupant and the loop `break`s. -/
def selectFrom (privileged : List String) :
    List (String × List ProcInfo) → Option (String × ProcInfo)
  | [] => none
  | (u, procs) :: rest =>
    match procs.filter (fun p => p.preemption_candidate) with
    | [] => selectFrom privileged rest
    | c :: cs =>
      if over_minimum privileged u procs then some (u, pyMaxStart c cs)
      else selectFrom privileged rest

/-- Full preemption victim selection: stable-sort the shuffled group list by
size descending, then walk it. -/
def preemptVictim (privileged : List String) (shuffled : List (String × List ProcInfo)) :
    Option (String × ProcInfo) :=
  selectFrom privileged (sortBySizeDesc shuffled)

/-! ## Theorems -/

/-- C10: the two request classes are complementary: a device name is
class-compatible with a large-memory request exactly when it contains the
marker `8000`, with a standard request exactly when it does not, and every
device is compatible with exactly one of the two request types. -/
theorem c10_request_classes_complementary (name : String) :
    can_run true name = contains8000 name ∧
    can_run false name = !contains8000 name ∧
    (can_run true name = true ↔ ¬can_run false name = true) := by
  cases h : contains8000 name <;> simp [can_run, h]

theorem killPollGo_empty_iff (alive : Nat → String → Bool) (L : List String) :
    ∀ (r t : Nat),
      (killPollGo alive L t r = [] ↔ ∃ s, t ≤ s ∧ s ≤ t + r ∧ L.filter (alive s) = []) := by
  intro r
  induction r with
  | zero =>
    intro t
    constructor
    · intro h
      exact ⟨t, le_refl t, by omega, h⟩
    · rintro ⟨s, hs1, hs2, hf⟩
      have hst : s = t := by omega
      subst hst
      exact hf
  | succ n ih =>
    intro t
    by_cases h : L.filter (alive t) = []
    · constructor
      · intro _
        exact ⟨t, le_refl t, by omega, h⟩
      · intro _
        simp only [killPollGo]
        rw [if_pos h]
        exact h
    · simp only [killPollGo, h, if_neg, ite_false]
      rw [ih (t + 1)]
      constructor
      · rintro ⟨s, hs1, hs2, hf⟩
        exact ⟨s, by omega, by omega, hf⟩
      · rintro ⟨s, hs1, hs2, hf⟩
        have hst : s ≠ t := by
          rintro rfl
          exact h hf
        exact ⟨s, by omega, by omega, hf⟩

theorem killPollGo_probe (alive : Nat → String → Bool) (L : List String) :
    ∀ (r t : Nat), ∃ s, t ≤ s ∧ s ≤ t + r ∧ killPollGo alive L t r = L.filter (alive s) := by
  intro r
  induction r with
  | zero => intro t; exact ⟨t, le_refl t, by omega, rfl⟩
  | succ n ih =>
    intro t
    by_cases h : L.filter (alive t) = []
    · exact ⟨t, le_refl t, by omega, by simp only [killPollGo, h, if_pos]⟩
    · obtain ⟨s, hs1, hs2, hf⟩ := ih (t + 1)
      exact ⟨s, by omega, by omega, by simp only [killPollGo, h, ite_false]; exact hf⟩

theorem killPollGo_timeout (alive : Nat → String → Bool) (L : List String) :
    ∀ (r t : Nat), (∀ s, t ≤ s → s ≤ t + r → L.filter (alive s) ≠ []) →
      killPollGo alive L t r = L.filter (alive (t + r)) := by
  intro r
  induction r with
  | zero => intro t _; rfl
  | succ n ih =>
    intro t hne
    have h : L.filter (alive t) ≠ [] := hne t (le_refl t) (by omega)
    simp only [killPollGo, h, ite_false]
    have hrest := ih (t + 1) (fun s hs1 hs2 => hne s (by omega) (by omega))
    have harith : t + 1 + n = t + (n + 1) := by omega
    rw [harith] at hrest
    exact hrest

/-- C8: `kill_process` in recursive mode sends exactly one signal, addressed
to the victim's process group (`-pid`); it only ever probes the descendant
list enumerated before signalling; the result is empty iff some probe within
`max_wait` seconds finds no survivor; the result is always the verbatim
filtered survivor list of one probe; and when every probe up to `max_wait`
finds survivors, the result is exactly the survivor list of the final probe,
unchanged. -/
theorem c8_terminate_single_signal_and_survivors (descendants : String → List String)
    (alive : Nat → String → Bool) (pid : String) (max_wait : Nat) :
    (kill_process descendants alive pid max_wait true 15).1 = [(15, "-" ++ pid)] ∧
    ((kill_process descendants alive pid max_wait true 15).2 = [] ↔
      ∃ t, t ≤ max_wait ∧ (descendants pid).filter (alive t) = []) ∧
    (∃ t, t ≤ max_wait ∧
      (kill_process descendants alive pid max_wait true 15).2
        = (descendants pid).filter (alive t)) ∧
    ((∀ t, t ≤ max_wait → (descendants pid).filter (alive t) ≠ []) →
      (kill_process descendants alive pid max_wait true 15).2
        = (descendants pid).filter (alive max_wait)) := by
  refine ⟨rfl, ?_, ?_, ?_⟩
  · rw [show (kill_process descendants alive pid max_wait true 15).2
        = killPollGo alive (descendants pid) 0 max_wait from rfl]
    rw [killPollGo_empty_iff alive (descendants pid) max_wait 0]
    constructor
    · rintro ⟨s, _, hs2, hf⟩; exact ⟨s, by omega, hf⟩
    · rintro ⟨s, hs, hf⟩; exact ⟨s, by omega, by omega, hf⟩
  · obtain ⟨s, _, hs2, hf⟩ := killPollGo_probe alive (descendants pid) max_wait 0
    exact ⟨s, by omega, hf⟩
  · intro hne
    have htime := killPollGo_timeout alive (descendants pid) max_wait 0
      (fun s _ hs2 => hne s (by omega))
    rw [Nat.zero_add] at htime
    exact htime

/-- Witness for C8 at a concrete input: two descendants that both die two
seconds after the signal, probed with a three-second budget. -/
theorem c8_terminate_witness :
    (kill_process (fun _ => ["8", "9"]) (fun t _ => decide (t < 2)) "7" 3 true 15).1
      = [(15, "-7")] ∧
    (kill_process (fun _ => ["8", "9"]) (fun t _ => decide (t < 2)) "7" 3 true 15).2 = [] := by
  have h := c8_terminate_single_signal_and_survivors (fun _ => ["8", "9"])
    (fun t _ => decide (t < 2)) "7" 3
  exact ⟨h.1, h.2.1.mpr ⟨2, by decide, by decide⟩⟩

theorem acquireGo_fail_spec (me : String) (st0 : LockState) :
    ∀ (fns : List String) (st : LockState) (acq : List String)
      (st1 : LockState) (acq1 : List String) (blocked : String),
      acquireGo me st acq fns = (st1, acq1, some blocked) →
      (∀ g, g ∉ acq → st g = st0 g) →
      (∀ g ∈ acq, st g = some me) →
      (∀ g ∈ acq, st0 g = none) →
      (∀ g ∈ fns, g ∉ acq) →
      fns.Nodup →
      (∀ g, st0 g ≠ some me) →
      (∀ g, st1 g = st0 g) ∧ blocked ∈ fns ∧ ∃ p, st0 blocked = some p ∧ p ≠ me := by
  intro fns
  induction fns with
  | nil =>
    intro st acq st1 acq1 blocked h
    simp [acquireGo] at h
  | cons fn rest ih =>
    intro st acq st1 acq1 blocked h hout hin hin0 hdisj hnd hnotme
    have hfnacq : fn ∉ acq := hdisj fn (by simp)
    cases hfn : st fn with
    | none =>
      simp only [acquireGo, hfn] at h
      have hfn0 : st0 fn = none := by rw [← hout fn hfnacq]; exact hfn
      obtain ⟨h1, h2, h3⟩ := ih (flockUpd st fn me) (fn :: acq) st1 acq1 blocked h
        (by
          intro g hg
          have hg1 : g ≠ fn := fun hgfn => hg (by simp [hgfn])
          have hg2 : g ∉ acq := fun hga => hg (by simp [hga])
          simp only [flockUpd, if_neg hg1]
          exact hout g hg2)
        (by
          intro g hg
          rcases List.mem_cons.mp hg with hgfn | hga
          · simp [flockUpd, hgfn]
          · have hg1 : g ≠ fn := by
              rintro rfl
              exact hfnacq hga
            simp only [flockUpd, if_neg hg1]
            exact hin g hga)
        (by
          intro g hg
          rcases List.mem_cons.mp hg with hgfn | hga
          · rw [hgfn]; exact hfn0
          · exact hin0 g hga)
        (by
          intro g hg
          have hg1 : g ≠ fn := by
            rintro rfl
            exact (List.nodup_cons.mp hnd).1 hg
          have hg2 : g ∉ acq := hdisj g (by simp [hg])
          simp [hg1, hg2])
        (List.nodup_cons.mp hnd).2
        hnotme
      exact ⟨h1, List.mem_cons_of_mem fn h2, h3⟩
    | some p =>
      simp only [acquireGo, hfn, Prod.mk.injEq, Option.some.injEq] at h
      obtain ⟨hst, hacq, hb⟩ := h
      subst hst
      subst hb
      refine ⟨?_, by simp, p, ?_, ?_⟩
      · intro g
        by_cases hga : g ∈ acq
        · have hc : acq.contains g = true := by simpa using hga
          simp only [releaseAll, if_pos hc]
          exact (hin0 g hga).symm
        · have hc : ¬acq.contains g = true := by simpa using hga
          simp only [releaseAll, if_neg hc]
          exact hout g hga
      · rw [← hout fn hfnacq]
        exact hfn
      · rintro rfl
        exact hnotme fn (by rw [← hout fn hfnacq]; exact hfn)

/-- C1: the locking phase of `lock_and_run` is all-or-nothing.  If the caller
(`me`, who holds no lock beforehand) fails to flock some file of the requested
sequence, the lock table after the call is exactly the table before it — every
lock acquired within the call has been released by the `ExitStack` unwinding —
and the returned blocking file object names a requested device whose lock was
held by some other process. -/
theorem c1_locking_all_or_nothing (me : String) (st : LockState) (files : List PyVal)
    (cmdStatus : Int) (env : Env) (st1 : LockState) (b : PyVal)
    (h : lock_and_run me st files cmdStatus env = Except.error (st1, b))
    (h0 : ∀ fn, st fn ≠ some me)
    (hnd : (files.map pyFileName).Nodup) :
    (∀ fn, st1 fn = st fn) ∧
    ∃ fn, b = PyVal.fileObj fn ∧ fn ∈ files.map pyFileName ∧
      ∃ p, st fn = some p ∧ p ≠ me := by
  unfold lock_and_run at h
  cases hacq : acquire_all me st (files.map pyFileName) with
  | mk st2 rest =>
    cases rest with
    | mk acq ob =>
      rw [hacq] at h
      cases ob with
      | none => simp at h
      | some blocked =>
        simp only [Except.error.injEq, Prod.mk.injEq] at h
        obtain ⟨hst, hb⟩ := h
        obtain ⟨h1, h2, h3⟩ := acquireGo_fail_spec me st (files.map pyFileName) st []
          st2 acq blocked hacq (fun g _ => rfl) (by simp) (by simp) (by simp) hnd h0
        subst hst
        exact ⟨h1, blocked, hb.symm, h2, h3⟩

/-- Concrete lock table for the C1 witness: lock file `b` held by `other`. -/
def c1st : LockState := fun fn => if fn = "b" then some "other" else none

/-- Witness for C1: requesting `[a, b]` when `b` is held by another process
rolls the table back (both files end unlocked exactly as before) and reports
file `b`. -/
theorem c1_locking_all_or_nothing_witness :
    (∀ fn, releaseAll (flockUpd c1st "a" "me") ["a"] fn = c1st fn) ∧
    ∃ fn, (PyVal.fileObj "b") = PyVal.fileObj fn ∧
      fn ∈ [PyVal.str "a", PyVal.str "b"].map pyFileName ∧
      ∃ p, c1st fn = some p ∧ p ≠ "me" :=
  c1_locking_all_or_nothing "me" c1st [PyVal.str "a", PyVal.str "b"] 0 (fun _ => none)
    (releaseAll (flockUpd c1st "a" "me") ["a"]) (PyVal.fileObj "b") rfl
    (by
      intro fn
      by_cases hb : fn = "b" <;> simp [c1st, hb])
    (by decide)

/-- Concrete lock table for the C2 evidence: another process grabbed
`d/gpu0` between the scan and the acquisition attempt. -/
def c2locks : LockState := fun fn => if fn = "d/gpu0" then some "other" else none

/-- C2 (code bug evidence): when the acquisition attempt loses the race on a
device, `try_launch` executes `del available_gpu_locks[blocking_file]` with
the open file object returned by `lock_and_run` as key, while the dict is
keyed by the lock-file name strings; a file object equals no string, so the
`del` raises an uncaught `KeyError` and the invocation dies instead of
removing the contended device and retrying. -/
theorem c2_lock_race_raises_keyerror :
    (try_launch_loop "me" ⟨false, 1, false, 10⟩ 0 [] c2locks (fun _ => none)
      [(PyVal.str "d/gpu0", "0"), (PyVal.str "d/gpu1", "1")]).isKeyError = true := by
  rfl

theorem acquireGo_free_success (me : String) :
    ∀ (fns : List String) (st : LockState) (acq : List String),
      (∀ g ∈ fns, st g = none) → fns.Nodup →
      ∃ st1 acq1, acquireGo me st acq fns = (st1, acq1, none) := by
  intro fns
  induction fns with
  | nil =>
    intro st acq _ _
    exact ⟨st, acq, rfl⟩
  | cons fn rest ih =>
    intro st acq hfree hnd
    have hfn : st fn = none := hfree fn (by simp)
    have hrec := ih (flockUpd st fn me) (fn :: acq)
      (by
        intro g hg
        have hg1 : g ≠ fn := by
          rintro rfl
          exact (List.nodup_cons.mp hnd).1 hg
        simp only [flockUpd, if_neg hg1]
        exact hfree g (by simp [hg]))
      (List.nodup_cons.mp hnd).2
    obtain ⟨st1, acq1, hgo⟩ := hrec
    exact ⟨st1, acq1, by simp only [acquireGo, hfn]; exact hgo⟩

/-- C3 counterexample: a workload that exits with status 2 under a successful
reservation still makes the invocation call `sys.exit(0)` — `lock_and_run`
discards `process.wait()`'s value and `try_launch` exits 0 on any successful
run, so the invocation's exit code is not the workload's status. -/
theorem c3_counterexample_exit_zero_on_failed_workload :
    (try_launch_loop "me" ⟨false, 1, false, 10⟩ 2 [] (fun _ => none) (fun _ => none)
      [(PyVal.str "d/gpu0", "0"), (PyVal.str "d/gpu1", "1")]).exitCode? = some 0 ∧
    (2 : Int) ≠ 0 :=
  ⟨rfl, by decide⟩

/-- C3 as amended: whenever the requested devices can be locked (here: every
lock file free and the chosen lock files distinct), the invocation terminates
via `sys.exit(0)` regardless of the workload's own exit status. -/
theorem c3_amended_exit_zero_whenever_run (me : String) (args : Args) (cmdStatus : Int)
    (reserved : List ProcInfo) (st : LockState) (environ : Env)
    (avail : List (PyVal × String))
    (hn : args.num_gpus ≤ avail.length)
    (hfree : ∀ fn, st fn = none)
    (hnd : (((avail.take args.num_gpus).map (fun e => e.1)).map pyFileName).Nodup) :
    (try_launch_loop me args cmdStatus reserved st environ avail).exitCode? = some 0 := by
  unfold try_launch_loop
  simp only [tryLaunchGo, if_pos hn]
  obtain ⟨st1, acq1, hgo⟩ := acquireGo_free_success me
    (((avail.take args.num_gpus).map (fun e => e.1)).map pyFileName) st []
    (fun g _ => hfree g) hnd
  rw [show lock_and_run me st ((avail.take args.num_gpus).map (fun e => e.1)) cmdStatus
      (setEnv (if args.no_inherit_environment then (fun _ => none) else environ)
        "CUDA_VISIBLE_DEVICES"
        (commaJoin ((avail.take args.num_gpus).map (fun e => e.2))))
      = Except.ok (releaseAll st1 acq1,
          setEnv (if args.no_inherit_environment then (fun _ => none) else environ)
            "CUDA_VISIBLE_DEVICES"
            (commaJoin ((avail.take args.num_gpus).map (fun e => e.2)))) from by
    unfold lock_and_run acquire_all
    rw [hgo]]
  rfl

/-- Witness for C3 as amended: one free device, workload status 7, exit 0. -/
theorem c3_amended_witness :
    (try_launch_loop "me" ⟨false, 1, false, 10⟩ 7 [] (fun _ => none) (fun _ => none)
      [(PyVal.str "d/gpu0", "0")]).exitCode? = some 0 :=
  c3_amended_exit_zero_whenever_run "me" ⟨false, 1, false, 10⟩ 7 [] (fun _ => none)
    (fun _ => none) [(PyVal.str "d/gpu0", "0")] (by decide) (fun _ => rfl) (by decide)

theorem lock_and_run_ok_env (me : String) (st : LockState) (files : List PyVal)
    (cmdStatus : Int) (env : Env) (st1 : LockState) (sp : Env)
    (h : lock_and_run me st files cmdStatus env = Except.ok (st1, sp)) : sp = env := by
  unfold lock_and_run at h
  cases hacq : acquire_all me st (files.map pyFileName) with
  | mk st2 rest =>
    cases rest with
    | mk acq ob =>
      rw [hacq] at h
      cases ob with
      | none =>
        simp only [Except.ok.injEq, Prod.mk.injEq] at h
        exact h.2.symm
      | some blocked => simp at h

theorem pyDictDel_fileObj_error (d : List (PyVal × String)) (p : String)
    (hkeys : ∀ e ∈ d, ∃ s, e.1 = PyVal.str s) :
    pyDictDel d (PyVal.fileObj p) = Except.error () := by
  unfold pyDictDel
  rw [if_neg]
  intro hany
  obtain ⟨e, he, hpe⟩ := List.any_eq_true.mp hany
  obtain ⟨s, hs⟩ := hkeys e he
  rw [hs] at hpe
  simp [pyEq] at hpe

/-- C9: with the environment inherited, `try_launch` binds `env` to
`os.environ` itself and writes `CUDA_VISIBLE_DEVICES` into it in place.  Over
the whole acquisition loop (whose dict keys are the lock-file strings): every
key other than `CUDA_VISIBLE_DEVICES` keeps its initial value; once an attempt
has been made, `CUDA_VISIBLE_DEVICES` holds the comma-joined indices of the
chosen devices and keeps holding them in whatever way the loop ends; and the
environment the workload is spawned with is the (mutated) `os.environ`
mapping itself, not a copy. -/
theorem c9_environ_mutated_in_place (me : String) (args : Args) (cmdStatus : Int)
    (reserved : List ProcInfo) (st : LockState) (environ : Env)
    (avail : List (PyVal × String))
    (hinherit : args.no_inherit_environment = false)
    (hkeys : ∀ e ∈ avail, ∃ s, e.1 = PyVal.str s) :
    (∀ k, k ≠ "CUDA_VISIBLE_DEVICES" →
      (try_launch_loop me args cmdStatus reserved st environ avail).environ k = environ k) ∧
    (args.num_gpus ≤ avail.length →
      (try_launch_loop me args cmdStatus reserved st environ avail).environ
        "CUDA_VISIBLE_DEVICES"
        = some (commaJoin ((avail.take args.num_gpus).map (fun e => e.2)))) ∧
    (∀ c env1 lk sp,
      try_launch_loop me args cmdStatus reserved st environ avail
        = LaunchOutcome.exited c env1 lk sp → sp = env1) := by
  unfold try_launch_loop
  by_cases hn : args.num_gpus ≤ avail.length
  · simp only [tryLaunchGo, if_pos hn, hinherit, Bool.false_eq_true, if_false]
    cases hlr : lock_and_run me st ((avail.take args.num_gpus).map (fun e => e.1)) cmdStatus
      (setEnv environ "CUDA_VISIBLE_DEVICES"
        (commaJoin ((avail.take args.num_gpus).map (fun e => e.2)))) with
    | ok v =>
      obtain ⟨st1, sp⟩ := v
      have hsp := lock_and_run_ok_env me st _ cmdStatus _ st1 sp hlr
      subst hsp
      simp only [hlr]
      refine ⟨?_, ?_, ?_⟩
      · intro k hk
        simp only [LaunchOutcome.environ, setEnv, if_neg hk]
      · intro _
        simp [LaunchOutcome.environ, setEnv]
      · intro c env1 lk sp h
        cases h
        rfl
    | error v =>
      obtain ⟨st1, blocked⟩ := v
      have hblocked : ∃ fn, blocked = PyVal.fileObj fn := by
        unfold lock_and_run at hlr
        cases hacq : acquire_all me st
            (((avail.take args.num_gpus).map (fun e => e.1)).map pyFileName) with
        | mk st2 rest =>
          cases rest with
          | mk acq ob =>
            rw [hacq] at hlr
            cases ob with
            | none => simp at hlr
            | some b =>
              simp only [Except.error.injEq, Prod.mk.injEq] at hlr
              exact ⟨b, hlr.2.symm⟩
      obtain ⟨fn, hfn⟩ := hblocked
      subst hfn
      simp only [hlr, pyDictDel_fileObj_error avail fn hkeys]
      refine ⟨?_, ?_, ?_⟩
      · intro k hk
        simp only [LaunchOutcome.environ, setEnv, if_neg hk]
      · intro _
        simp [LaunchOutcome.environ, setEnv]
      · intro c env1 lk sp h
        cases h
  · simp only [tryLaunchGo, if_neg hn]
    refine ⟨fun _ _ => rfl, fun hc => absurd hc hn, ?_⟩
    intro c env1 lk sp h
    cases h

/-- Concrete starting environment for the C9 witness. -/
def c9env : Env := fun k => if k = "HOME" then some "/root" else none

/-- Witness for C9: one free device requested of two available; after the
loop, `HOME` is untouched, `CUDA_VISIBLE_DEVICES` is `0`, and the spawned
workload saw exactly the final `os.environ`. -/
theorem c9_environ_mutated_in_place_witness :
    (∀ k, k ≠ "CUDA_VISIBLE_DEVICES" →
      (try_launch_loop "me" ⟨false, 1, false, 10⟩ 0 [] (fun _ => none) c9env
        [(PyVal.str "d/gpu0", "0"), (PyVal.str "d/gpu1", "1")]).environ k = c9env k) ∧
    ((⟨false, 1, false, 10⟩ : Args).num_gpus ≤
        ([(PyVal.str "d/gpu0", "0"), (PyVal.str "d/gpu1", "1")] :
          List (PyVal × String)).length →
      (try_launch_loop "me" ⟨false, 1, false, 10⟩ 0 [] (fun _ => none) c9env
        [(PyVal.str "d/gpu0", "0"), (PyVal.str "d/gpu1", "1")]).environ
        "CUDA_VISIBLE_DEVICES"
        = some (commaJoin ((([(PyVal.str "d/gpu0", "0"), (PyVal.str "d/gpu1", "1")] :
            List (PyVal × String)).take 1).map (fun e => e.2)))) ∧
    (∀ c env1 lk sp,
      try_launch_loop "me" ⟨false, 1, false, 10⟩ 0 [] (fun _ => none) c9env
        [(PyVal.str "d/gpu0", "0"), (PyVal.str "d/gpu1", "1")]
        = LaunchOutcome.exited c env1 lk sp → sp = env1) :=
  c9_environ_mutated_in_place "me" ⟨false, 1, false, 10⟩ 0 [] (fun _ => none) c9env
    [(PyVal.str "d/gpu0", "0"), (PyVal.str "d/gpu1", "1")] rfl
    (by
      intro e he
      rcases List.mem_cons.mp he with h | h
      · exact ⟨"d/gpu0", by rw [h]⟩
      · rcases List.mem_cons.mp h with h2 | h2
        · exact ⟨"d/gpu1", by rw [h2]⟩
        · simp at h2)

theorem classify_available_mem (large_mem : Bool) (dir : String)
    (gp : String → List String) (pu : String → String) (ast : String → Int)
    (lk : String → Option String) :
    ∀ (l : List (String × GPUInfo)) (e : PyVal × String),
      e ∈ (classify large_mem dir gp pu ast lk l).1 →
      ∃ uuid info, (uuid, info) ∈ l ∧
        used_by gp lk dir uuid info = none ∧
        can_run large_mem info.name = true ∧
        e = (PyVal.str (lockFile dir info.index), info.index) := by
  intro l
  induction l with
  | nil =>
    intro e he
    simp [classify] at he
  | cons hd rest ih =>
    obtain ⟨uuid, info⟩ := hd
    intro e he
    simp only [classify] at he
    cases hu : used_by gp lk dir uuid info with
    | none =>
      rw [hu] at he
      by_cases hc : can_run large_mem info.name = true
      · rw [if_pos hc] at he
        rcases List.mem_cons.mp he with hhd | htl
        · exact ⟨uuid, info, by simp, hu, hc, hhd⟩
        · obtain ⟨u2, i2, hm, h1, h2, h3⟩ := ih e htl
          exact ⟨u2, i2, by simp [hm], h1, h2, h3⟩
      · rw [if_neg hc] at he
        obtain ⟨u2, i2, hm, h1, h2, h3⟩ := ih e he
        exact ⟨u2, i2, by simp [hm], h1, h2, h3⟩
    | some p =>
      rw [hu] at he
      obtain ⟨u2, i2, hm, h1, h2, h3⟩ := ih e he
      exact ⟨u2, i2, by simp [hm], h1, h2, h3⟩

theorem classify_reserved_mem (large_mem : Bool) (dir : String)
    (gp : String → List String) (pu : String → String) (ast : String → Int)
    (lk : String → Option String) :
    ∀ (l : List (String × GPUInfo)) (pr : ProcInfo),
      pr ∈ (classify large_mem dir gp pu ast lk l).2 →
      ∃ uuid info p, (uuid, info) ∈ l ∧
        used_by gp lk dir uuid info = some p ∧
        pr = mkProcInfo pu ast large_mem p info := by
  intro l
  induction l with
  | nil =>
    intro pr hpr
    simp [classify] at hpr
  | cons hd rest ih =>
    obtain ⟨uuid, info⟩ := hd
    intro pr hpr
    simp only [classify] at hpr
    cases hu : used_by gp lk dir uuid info with
    | none =>
      rw [hu] at hpr
      by_cases hc : can_run large_mem info.name = true
      · rw [if_pos hc] at hpr
        obtain ⟨u2, i2, p2, hm, h1, h2⟩ := ih pr hpr
        exact ⟨u2, i2, p2, by simp [hm], h1, h2⟩
      · rw [if_neg hc] at hpr
        obtain ⟨u2, i2, p2, hm, h1, h2⟩ := ih pr hpr
        exact ⟨u2, i2, p2, by simp [hm], h1, h2⟩
    | some p =>
      rw [hu] at hpr
      rcases List.mem_cons.mp hpr with hhd | htl
      · exact ⟨uuid, info, p, by simp, hu, hhd⟩
      · obtain ⟨u2, i2, p2, hm, h1, h2⟩ := ih pr htl
        exact ⟨u2, i2, p2, by simp [hm], h1, h2⟩

theorem classify_reserved_of_used (large_mem : Bool) (dir : String)
    (gp : String → List String) (pu : String → String) (ast : String → Int)
    (lk : String → Option String) :
    ∀ (l : List (String × GPUInfo)) (uuid : String) (info : GPUInfo) (p : String),
      (uuid, info) ∈ l → used_by gp lk dir uuid info = some p →
      mkProcInfo pu ast large_mem p info ∈ (classify large_mem dir gp pu ast lk l).2 := by
  intro l
  induction l with
  | nil =>
    intro uuid info p hm
    simp at hm
  | cons hd rest ih =>
    obtain ⟨u0, i0⟩ := hd
    intro uuid info p hm hu
    simp only [classify]
    rcases List.mem_cons.mp hm with hhd | htl
    · have h1 : uuid = u0 := congrArg Prod.fst hhd
      have h2 : info = i0 := congrArg Prod.snd hhd
      subst h1
      subst h2
      rw [hu]
      exact List.mem_cons_self _ _
    · have hrec := ih uuid info p htl hu
      cases hu0 : used_by gp lk dir u0 i0 with
      | none =>
        by_cases hc : can_run large_mem i0.name = true
        · rw [if_pos hc]
          exact hrec
        · rw [if_neg hc]
          exact hrec
      | some q =>
        exact List.mem_cons_of_mem _ hrec

/-- Two inventory entries with the same nvidia-smi index are the same entry,
given that the indices are distinct across the inventory. -/
theorem inventory_index_inj (l : List (String × GPUInfo))
    (hinj : (l.map (fun g => g.2.index)).Nodup) :
    ∀ a ∈ l, ∀ b ∈ l, a.2.index = b.2.index → a = b := by
  intro a ha b hb hab
  exact List.inj_on_of_nodup_map hinj ha hb hab

/-- C4 counterexample: with a standard (non-large-memory) request, a
large-memory device (`8000` in its name) held by pid 42 still shows up in the
reserved bookkeeping — class-mismatched devices are not invisible to the
classifier's `reserved` output. -/
theorem c4_counterexample_wrong_class_in_reserved :
    can_run false "Quadro RTX 8000" = false ∧
    (classify false "d" (fun _ => []) (fun p => if p = "42" then "alice" else "x")
        (fun _ => 5) (fun fn => if fn = "d/gpu0" then some "42" else none)
        [("u1", ⟨"0", "Quadro RTX 8000"⟩)]).2
      = [⟨"42", "alice", "0", 5, false⟩] := by
  constructor
  · decide
  · rfl

/-- C4 as amended: a device whose class does not match the request never
enters the free set (no `available_gpu_locks` entry carries its index), but
when it is occupied it does enter the reserved bookkeeping — with
`preemption_candidate = false`, which is what keeps it out of victim
selection.  Indices are assumed distinct across the inventory, as nvidia-smi
guarantees. -/
theorem c4_amended_wrong_class_excluded_from_free (large_mem : Bool) (dir : String)
    (gp : String → List String) (pu : String → String) (ast : String → Int)
    (lk : String → Option String) (l : List (String × GPUInfo))
    (uuid : String) (info : GPUInfo)
    (hmem : (uuid, info) ∈ l)
    (hinj : (l.map (fun g => g.2.index)).Nodup)
    (hclass : can_run large_mem info.name = false) :
    (∀ e ∈ (classify large_mem dir gp pu ast lk l).1, e.2 ≠ info.index) ∧
    (∀ pr ∈ (classify large_mem dir gp pu ast lk l).2,
      pr.gpu_index = info.index → pr.preemption_candidate = false) := by
  constructor
  · intro e he hidx
    obtain ⟨u2, i2, hm2, _, hcr2, he2⟩ := classify_available_mem large_mem dir gp pu ast lk l e he
    have hi : i2.index = info.index := by
      rw [he2] at hidx
      exact hidx
    have heq := inventory_index_inj l hinj (u2, i2) hm2 (uuid, info) hmem hi
    have : i2 = info := congrArg Prod.snd heq
    rw [this] at hcr2
    rw [hcr2] at hclass
    simp at hclass
  · intro pr hpr hidx
    obtain ⟨u2, i2, p2, hm2, _, hpr2⟩ := classify_reserved_mem large_mem dir gp pu ast lk l pr hpr
    have hi : i2.index = info.index := by
      rw [hpr2] at hidx
      exact hidx
    have heq := inventory_index_inj l hinj (u2, i2) hm2 (uuid, info) hmem hi
    have h2 : i2 = info := congrArg Prod.snd heq
    rw [hpr2]
    simp only [mkProcInfo, h2]
    exact hclass

/-- Witness for C4 as amended, at the counterexample snapshot. -/
theorem c4_amended_witness :
    (∀ e ∈ (classify false "d" (fun _ => []) (fun p => if p = "42" then "alice" else "x")
        (fun _ => 5) (fun fn => if fn = "d/gpu0" then some "42" else none)
        [("u1", ⟨"0", "Quadro RTX 8000"⟩)]).1, e.2 ≠ "0") ∧
    (∀ pr ∈ (classify false "d" (fun _ => []) (fun p => if p = "42" then "alice" else "x")
        (fun _ => 5) (fun fn => if fn = "d/gpu0" then some "42" else none)
        [("u1", ⟨"0", "Quadro RTX 8000"⟩)]).2,
      pr.gpu_index = "0" → pr.preemption_candidate = false) :=
  c4_amended_wrong_class_excluded_from_free false "d" (fun _ => [])
    (fun p => if p = "42" then "alice" else "x") (fun _ => 5)
    (fun fn => if fn = "d/gpu0" then some "42" else none)
    [("u1", ⟨"0", "Quadro RTX 8000"⟩)] "u1" ⟨"0", "Quadro RTX 8000"⟩
    (by simp) (by simp) (by decide)

/-- C5: an orphaned device — no lock holder, but device-level processes — is
never offered for acquisition (no free-set entry carries its index), and its
first using process is recorded as the occupant in the reserved bookkeeping,
whatever the requested count or class. -/
theorem c5_orphaned_not_free_first_user_occupant (large_mem : Bool) (dir : String)
    (gp : String → List String) (pu : String → String) (ast : String → Int)
    (lk : String → Option String) (l : List (String × GPUInfo))
    (uuid : String) (info : GPUInfo) (p : String) (ps : List String)
    (hmem : (uuid, info) ∈ l)
    (hinj : (l.map (fun g => g.2.index)).Nodup)
    (hlock : lk (lockFile dir info.index) = none)
    (hused : gp uuid = p :: ps) :
    (∀ e ∈ (classify large_mem dir gp pu ast lk l).1, e.2 ≠ info.index) ∧
    mkProcInfo pu ast large_mem p info ∈ (classify large_mem dir gp pu ast lk l).2 := by
  have husedby : used_by gp lk dir uuid info = some p := by
    unfold used_by
    rw [hlock, hused]
  constructor
  · intro e he hidx
    obtain ⟨u2, i2, hm2, hu2, _, he2⟩ := classify_available_mem large_mem dir gp pu ast lk l e he
    have hi : i2.index = info.index := by
      rw [he2] at hidx
      exact hidx
    have heq := inventory_index_inj l hinj (u2, i2) hm2 (uuid, info) hmem hi
    have h1 : u2 = uuid := congrArg Prod.fst heq
    have h2 : i2 = info := congrArg Prod.snd heq
    rw [h1, h2] at hu2
    rw [husedby] at hu2
    exact Option.some_ne_none p hu2
  · exact classify_reserved_of_used large_mem dir gp pu ast lk l uuid info p hmem husedby

/-- Witness for C5: one standard device with an unreserved user process 77. -/
theorem c5_orphaned_witness :
    (∀ e ∈ (classify false "d" (fun _ => ["77"]) (fun p => if p = "77" then "carol" else "x")
        (fun _ => 9) (fun _ => none) [("u1", ⟨"0", "NVIDIA RTX 2080"⟩)]).1,
      e.2 ≠ "0") ∧
    mkProcInfo (fun p => if p = "77" then "carol" else "x") (fun _ => 9) false "77"
        ⟨"0", "NVIDIA RTX 2080"⟩
      ∈ (classify false "d" (fun _ => ["77"]) (fun p => if p = "77" then "carol" else "x")
        (fun _ => 9) (fun _ => none) [("u1", ⟨"0", "NVIDIA RTX 2080"⟩)]).2 :=
  c5_orphaned_not_free_first_user_occupant false "d" (fun _ => ["77"])
    (fun p => if p = "77" then "carol" else "x") (fun _ => 9) (fun _ => none)
    [("u1", ⟨"0", "NVIDIA RTX 2080"⟩)] "u1" ⟨"0", "NVIDIA RTX 2080"⟩ "77" []
    (by simp) (by simp) rfl rfl

theorem usable_counts_keys_mem (reserved : List ProcInfo) (u : String) :
    ((user_reservation_counts_usable reserved).map (fun e => e.1)).contains u = true ↔
      ∃ e ∈ reserved, e.user = u := by
  unfold user_reservation_counts_usable
  simp [List.map_map, Function.comp]

/-- C6 counterexample: privileged caller `bob`, one GPU requested, state
Exhausted (free set empty), and `bob` holds nothing on any usable
(class-compatible) device — his only reservation is a class-mismatched
large-memory device, flagged `preemption_candidate = false`.  The claim's
preconditions all hold, yet the preemption guard of `main` is false, because
`user not in user_reservation_counts_usable` tests key membership and that
dict keys every user with any reservation at all (the count may be zero). -/
theorem c6_counterexample_wrong_class_holding_blocks_preemption :
    (classify false "d" (fun _ => []) (fun _ => "bob") (fun _ => 5)
        (fun fn => if fn = "d/gpu0" then some "42" else none)
        [("u1", ⟨"0", "Quadro RTX 8000"⟩)]).1 = [] ∧
    ("bob" ∈ ["bob"] ∧ (1 : Nat) = 1 ∧
      (∀ e ∈ (classify false "d" (fun _ => []) (fun _ => "bob") (fun _ => 5)
          (fun fn => if fn = "d/gpu0" then some "42" else none)
          [("u1", ⟨"0", "Quadro RTX 8000"⟩)]).2,
        ¬(e.user = "bob" ∧ e.preemption_candidate = true))) ∧
    preemptionAttempted "bob" ["bob"] 1
      (classify false "d" (fun _ => []) (fun _ => "bob") (fun _ => 5)
        (fun fn => if fn = "d/gpu0" then some "42" else none)
        [("u1", ⟨"0", "Quadro RTX 8000"⟩)]).2 = false := by
  refine ⟨rfl, ⟨by simp, rfl, ?_⟩, by decide⟩
  decide

/-- C6 as amended: the guard at line 256 attempts preemption exactly when the
caller is privileged, exactly one device was requested, and the caller
appears nowhere in the reserved bookkeeping — holding (or orphan-occupying) a
reservation on any device of either class disqualifies, not just holdings on
usable devices, because key membership in the usable-counts dict ignores the
counts.  (The guard runs right after `try_launch` returns, i.e. in the
Exhausted state.) -/
theorem c6_amended_guard_iff (user : String) (priv : List String) (n : Nat)
    (reserved : List ProcInfo) :
    preemptionAttempted user priv n reserved = true ↔
      (user ∈ priv ∧ (∀ e ∈ reserved, e.user ≠ user) ∧ n = 1) := by
  unfold preemptionAttempted
  constructor
  · intro h
    simp only [Bool.and_eq_true, Bool.not_eq_true', beq_iff_eq] at h
    obtain ⟨⟨h1, h2⟩, h3⟩ := h
    refine ⟨by simpa using h1, ?_, h3⟩
    intro e he heq
    have hmem : ((user_reservation_counts_usable reserved).map (fun e => e.1)).contains user
        = true := (usable_counts_keys_mem reserved user).mpr ⟨e, he, heq⟩
    rw [hmem] at h2
    simp at h2
  · rintro ⟨h1, h2, h3⟩
    simp only [Bool.and_eq_true, Bool.not_eq_true', beq_iff_eq]
    refine ⟨⟨by simpa using h1, ?_⟩, h3⟩
    rw [← Bool.not_eq_true]
    intro hmem
    obtain ⟨e, he, heq⟩ := (usable_counts_keys_mem reserved user).mp hmem
    exact h2 e he heq

theorem insertBySizeDesc_perm (x : String × List ProcInfo) :
    ∀ l, (insertBySizeDesc x l).Perm (x :: l) := by
  intro l
  induction l with
  | nil => simp [insertBySizeDesc]
  | cons y ys ih =>
    by_cases h : groupSize x < groupSize y
    · simp only [insertBySizeDesc, if_pos h]
      exact (List.Perm.cons y ih).trans (List.Perm.swap x y ys)
    · simp only [insertBySizeDesc, if_neg h]
      exact List.Perm.refl _

theorem insertBySizeDesc_pairwise (x : String × List ProcInfo) :
    ∀ l, l.Pairwise (fun a b => groupSize b ≤ groupSize a) →
      (insertBySizeDesc x l).Pairwise (fun a b => groupSize b ≤ groupSize a) := by
  intro l
  induction l with
  | nil =>
    intro _
    simp [insertBySizeDesc]
  | cons y ys ih =>
    intro hp
    obtain ⟨hy, hys⟩ := List.pairwise_cons.mp hp
    by_cases h : groupSize x < groupSize y
    · simp only [insertBySizeDesc, if_pos h]
      rw [List.pairwise_cons]
      refine ⟨?_, ih hys⟩
      intro b hb
      rcases List.mem_cons.mp ((insertBySizeDesc_perm x ys).mem_iff.mp hb) with rfl | hbys
      · exact le_of_lt h
      · exact hy b hbys
    · simp only [insertBySizeDesc, if_neg h]
      rw [List.pairwise_cons]
      refine ⟨?_, hp⟩
      intro b hb
      rcases List.mem_cons.mp hb with rfl | hbys
      · omega
      · have := hy b hbys
        omega

theorem insertBySizeDesc_filter (x : String × List ProcInfo) (n : Nat) :
    ∀ l, (insertBySizeDesc x l).filter (fun g => groupSize g == n)
      = if groupSize x == n then x :: l.filter (fun g => groupSize g == n)
        else l.filter (fun g => groupSize g == n) := by
  intro l
  induction l with
  | nil => by_cases hx : groupSize x = n <;> simp [insertBySizeDesc, hx]
  | cons y ys ih =>
    by_cases h : groupSize x < groupSize y
    · simp only [insertBySizeDesc, if_pos h, List.filter_cons, ih]
      by_cases hx : groupSize x = n
      · have hy : ¬groupSize y = n := by omega
        simp [hx, hy]
      · simp [hx]
    · simp only [insertBySizeDesc, if_neg h, List.filter_cons]

theorem sortBySizeDesc_perm : ∀ l, (sortBySizeDesc l).Perm l := by
  intro l
  induction l with
  | nil => simp [sortBySizeDesc]
  | cons x xs ih =>
    simp only [sortBySizeDesc]
    exact (insertBySizeDesc_perm x (sortBySizeDesc xs)).trans (List.Perm.cons x ih)

theorem sortBySizeDesc_pairwise :
    ∀ l, (sortBySizeDesc l).Pairwise (fun a b => groupSize b ≤ groupSize a) := by
  intro l
  induction l with
  | nil => simp [sortBySizeDesc]
  | cons x xs ih =>
    simp only [sortBySizeDesc]
    exact insertBySizeDesc_pairwise x (sortBySizeDesc xs) ih

theorem sortBySizeDesc_filter (n : Nat) :
    ∀ l, (sortBySizeDesc l).filter (fun g => groupSize g == n)
      = l.filter (fun g => groupSize g == n) := by
  intro l
  induction l with
  | nil => simp [sortBySizeDesc]
  | cons x xs ih =>
    simp only [sortBySizeDesc, insertBySizeDesc_filter, ih, List.filter_cons]

theorem over_minimum_iff (priv : List String) (u : String) (procs : List ProcInfo) :
    over_minimum priv u procs = true ↔ quota priv u < procs.length := by
  unfold over_minimum quota
  cases h : priv.contains u <;>
    simp [h, MINIMUM_PRIVELIGED_JOBS, MINIMUM_NON_PRIVELIGED_JOBS]

theorem pyMaxStart_mem : ∀ (ys : List ProcInfo) (x : ProcInfo), pyMaxStart x ys ∈ x :: ys := by
  intro ys
  induction ys with
  | nil =>
    intro x
    simp [pyMaxStart]
  | cons y ys ih =>
    intro x
    simp only [pyMaxStart]
    by_cases h : x.start_time < y.start_time
    · rw [if_pos h]
      exact List.mem_cons_of_mem x (ih y)
    · rw [if_neg h]
      rcases List.mem_cons.mp (ih x) with h1 | h1
      · rw [h1]
        exact List.mem_cons_self _ _
      · exact List.mem_cons_of_mem x (List.mem_cons_of_mem y h1)

theorem pyMaxStart_ge : ∀ (ys : List ProcInfo) (x : ProcInfo) (p : ProcInfo),
    p ∈ x :: ys → p.start_time ≤ (pyMaxStart x ys).start_time := by
  intro ys
  induction ys with
  | nil =>
    intro x p hp
    rcases List.mem_cons.mp hp with h | h
    · rw [h]
      simp [pyMaxStart]
    · simp at h
  | cons y ys ih =>
    intro x p hp
    simp only [pyMaxStart]
    by_cases hxy : x.start_time < y.start_time
    · rw [if_pos hxy]
      rcases List.mem_cons.mp hp with h | hp2
      · rw [h]
        exact le_trans (le_of_lt hxy) (ih y y (List.mem_cons_self _ _))
      · rcases List.mem_cons.mp hp2 with h | hp3
        · rw [h]
          exact ih y y (List.mem_cons_self _ _)
        · exact ih y p (List.mem_cons_of_mem y hp3)
    · rw [if_neg hxy]
      rcases List.mem_cons.mp hp with h | hp2
      · rw [h]
        exact ih x x (List.mem_cons_self _ _)
      · rcases List.mem_cons.mp hp2 with h | hp3
        · have hyx : p.start_time ≤ x.start_time := by
            rw [h]
            omega
          exact le_trans hyx (ih x x (List.mem_cons_self _ _))
        · exact ih x p (List.mem_cons_of_mem x hp3)

theorem selectFrom_some_spec (priv : List String) :
    ∀ (l : List (String × List ProcInfo)) (u : String) (v : ProcInfo),
      selectFrom priv l = some (u, v) →
      ∃ pre procs post,
        l = pre ++ (u, procs) :: post ∧
        (∀ g ∈ pre, g.2.filter (fun p => p.preemption_candidate) = [] ∨
          ¬quota priv g.1 < g.2.length) ∧
        procs.filter (fun p => p.preemption_candidate) ≠ [] ∧
        quota priv u < procs.length ∧
        v ∈ procs.filter (fun p => p.preemption_candidate) ∧
        (∀ p ∈ procs.filter (fun p => p.preemption_candidate),
          p.start_time ≤ v.start_time) := by
  intro l
  induction l with
  | nil =>
    intro u v h
    simp [selectFrom] at h
  | cons g rest ih =>
    obtain ⟨u0, procs0⟩ := g
    intro u v h
    simp only [selectFrom] at h
    split at h
    · rename_i hf
      obtain ⟨pre, procs, post, h1, h2, h3, h4, h5, h6⟩ := ih u v h
      refine ⟨(u0, procs0) :: pre, procs, post, by rw [h1]; rfl, ?_, h3, h4, h5, h6⟩
      intro g hg
      rcases List.mem_cons.mp hg with hghd | hgpre
      · rw [hghd]
        exact Or.inl hf
      · exact h2 g hgpre
    · rename_i c cs hf
      by_cases hov : over_minimum priv u0 procs0 = true
      · rw [if_pos hov] at h
        simp only [Option.some.injEq, Prod.mk.injEq] at h
        obtain ⟨hu, hv⟩ := h
        subst hu
        subst hv
        refine ⟨[], procs0, rest, rfl, by simp, ?_, ?_, ?_, ?_⟩
        · rw [hf]
          simp
        · exact (over_minimum_iff priv u0 procs0).mp hov
        · rw [hf]
          exact pyMaxStart_mem cs c
        · intro p hp
          rw [hf] at hp
          exact pyMaxStart_ge cs c p hp
      · rw [if_neg hov] at h
        obtain ⟨pre, procs, post, h1, h2, h3, h4, h5, h6⟩ := ih u v h
        refine ⟨(u0, procs0) :: pre, procs, post, by rw [h1]; rfl, ?_, h3, h4, h5, h6⟩
        intro g hg
        rcases List.mem_cons.mp hg with hghd | hgpre
        · rw [hghd]
          exact Or.inr (fun hq => hov ((over_minimum_iff priv u0 procs0).mpr hq))
        · exact h2 g hgpre

/-- C7: when victim selection returns a victim, the walk happened over a
stable descending-size reordering of the shuffled group list (a permutation
of it, sorted by size descending, preserving within each size class the
shuffled order — that is how equal-size ties stay broken by the shuffle);
every group walked before the chosen one was skipped because it had no
preemption candidate or its total size was at most its quota
(`MINIMUM_PRIVELIGED_JOBS = 1` for privileged owners,
`MINIMUM_NON_PRIVELIGED_JOBS = 0` otherwise); the chosen group qualifies; and
the victim is a preemption-candidate occupant of that group whose start time
is maximal among its preemption candidates — non-candidate occupants are
never selected, however new. -/
theorem c7_victim_selection (priv : List String)
    (shuffled : List (String × List ProcInfo)) (u : String) (v : ProcInfo)
    (h : preemptVictim priv shuffled = some (u, v)) :
    (sortBySizeDesc shuffled).Perm shuffled ∧
    (sortBySizeDesc shuffled).Pairwise (fun a b => groupSize b ≤ groupSize a) ∧
    (∀ n, (sortBySizeDesc shuffled).filter (fun g => groupSize g == n)
      = shuffled.filter (fun g => groupSize g == n)) ∧
    ∃ pre procs post,
      sortBySizeDesc shuffled = pre ++ (u, procs) :: post ∧
      (∀ g ∈ pre, g.2.filter (fun p => p.preemption_candidate) = [] ∨
        ¬quota priv g.1 < g.2.length) ∧
      procs.filter (fun p => p.preemption_candidate) ≠ [] ∧
      quota priv u < procs.length ∧
      v ∈ procs.filter (fun p => p.preemption_candidate) ∧
      (∀ p ∈ procs.filter (fun p => p.preemption_candidate),
        p.start_time ≤ v.start_time) :=
  ⟨sortBySizeDesc_perm shuffled, sortBySizeDesc_pairwise shuffled,
    fun n => sortBySizeDesc_filter n shuffled,
    selectFrom_some_spec priv (sortBySizeDesc shuffled) u v h⟩

/-- Concrete group list for the C7 witness: owner `a` with one job, owner `b`
with two candidate jobs started at times 1 and 5. -/
def c7groups : List (String × List ProcInfo) :=
  [("a", [⟨"1", "a", "0", 3, true⟩]),
   ("b", [⟨"2", "b", "1", 1, true⟩, ⟨"3", "b", "2", 5, true⟩])]

/-- Witness for C7: among a one-job owner and a two-job owner (neither
privileged, quota 0), the two-job group is walked first and its newest
candidate (start time 5) is selected. -/
theorem c7_victim_selection_witness :
    preemptVictim ["p"] c7groups = some ("b", ⟨"3", "b", "2", 5, true⟩) ∧
    ((sortBySizeDesc c7groups).Perm c7groups ∧
      (sortBySizeDesc c7groups).Pairwise (fun a b => groupSize b ≤ groupSize a) ∧
      (∀ n, (sortBySizeDesc c7groups).filter (fun g => groupSize g == n)
        = c7groups.filter (fun g => groupSize g == n)) ∧
      ∃ pre procs post,
        sortBySizeDesc c7groups = pre ++ ("b", procs) :: post ∧
        (∀ g ∈ pre, g.2.filter (fun p => p.preemption_candidate) = [] ∨
          ¬quota ["p"] g.1 < g.2.length) ∧
        procs.filter (fun p => p.preemption_candidate) ≠ [] ∧
        quota ["p"] "b" < procs.length ∧
        (⟨"3", "b", "2", 5, true⟩ : ProcInfo)
          ∈ procs.filter (fun p => p.preemption_candidate) ∧
        (∀ p ∈ procs.filter (fun p => p.preemption_candidate),
          p.start_time ≤ (5 : Int))) :=
  ⟨rfl, c7_victim_selection ["p"] c7groups "b" ⟨"3", "b", "2", 5, true⟩ rfl⟩

end Reserve
